import Mathlib

set_option maxRecDepth 100000

/-!
Verification of the fleet control-plane hub of `server_code.py`
(SeleniumStealthWebTool). The Python source is shallowly embedded:

* Python `bytes` are `List Nat` (each entry a byte value);
* Python `str` is Lean `String` (a list of unicode scalar values, which is
  exactly what a Python `str` that can be UTF-8 encoded is);
* Python dicts (insertion ordered, unique keys) are association lists with
  the update-in-place / append-if-new discipline of CPython dicts;
* the global mutable `ServerState` becomes explicit state passing;
* `broadcast_to_ui` / `send_to_client` side effects become lists of emitted
  events / sent messages returned by each handler.
-/

namespace SeleniumStealth

/-! ### Python dict as an insertion-ordered association list -/

/-- Python `d.get(k)`: value of the first (unique) binding of `k`, if any. -/
def dictGet {α : Type} : List (String × α) → String → Option α
  | [], _ => none
  | (k', v) :: rest, k => if k' = k then some v else dictGet rest k

/-- Python `d.get(k, dflt)`. -/
def dictGetD {α : Type} (m : List (String × α)) (k : String) (dflt : α) : α :=
  (dictGet m k).getD dflt

/-- Python `d[k] = v`: replace in place if the key exists, else append. -/
def dictSet {α : Type} : List (String × α) → String → α → List (String × α)
  | [], k, v => [(k, v)]
  | (k', v') :: rest, k, v =>
    if k' = k then (k', v) :: rest else (k', v') :: dictSet rest k v

/-- Python `k in d`. -/
def dictMem {α : Type} : List (String × α) → String → Bool
  | [], _ => false
  | (k', _) :: rest, k => k' = k || dictMem rest k

/-- Python `del d[k]` guarded by `if k in d` (idempotent removal). -/
def dictRemove {α : Type} : List (String × α) → String → List (String × α)
  | [], _ => []
  | (k', v) :: rest, k => if k' = k then rest else (k', v) :: dictRemove rest k

/-! ### UTF-8 codec

`bytes.encode('utf-8')` and `bytes.decode('utf-8', errors='ignore')` as used
by `pack_message` / `unpack_message`. The encoder is the standard UTF-8
encoding of each scalar value; the decoder follows CPython's maximal-subpart
error handling with the `ignore` policy: every byte that is not part of a
well-formed sequence is dropped (not replaced) and decoding never fails. -/

/-- UTF-8 encoding of one unicode scalar value (CPython `chr.encode`). -/
def utf8EncodeChar (c : Char) : List Nat :=
  let n := c.toNat
  if n < 0x80 then [n]
  else if n < 0x800 then [0xC0 + n / 0x40, 0x80 + n % 0x40]
  else if n < 0x10000 then
    [0xE0 + n / 0x1000, 0x80 + n / 0x40 % 0x40, 0x80 + n % 0x40]
  else
    [0xF0 + n / 0x40000, 0x80 + n / 0x1000 % 0x40,
     0x80 + n / 0x40 % 0x40, 0x80 + n % 0x40]

/-- UTF-8 encoding of a character sequence. -/
def utf8Encode : List Char → List Nat
  | [] => []
  | c :: cs => utf8EncodeChar c ++ utf8Encode cs

/-- Python `msg.encode('utf-8')`. -/
def strEncode (s : String) : List Nat := utf8Encode s.data

/-- Is `b` a UTF-8 continuation byte (`0x80..0xBF`)? -/
def isCont (b : Nat) : Prop := 0x80 ≤ b ∧ b < 0xC0

instance (b : Nat) : Decidable (isCont b) := by unfold isCont; infer_instance

/-- Valid second byte for a three-byte lead `b` (rules out overlong forms and
surrogates, as CPython does). -/
def cont3Ok (b b1 : Nat) : Prop :=
  isCont b1 ∧ (b = 0xE0 → 0xA0 ≤ b1) ∧ (b = 0xED → b1 < 0xA0)

instance (b b1 : Nat) : Decidable (cont3Ok b b1) := by unfold cont3Ok; infer_instance

/-- Valid second byte for a four-byte lead `b` (rules out overlong forms and
values above U+10FFFF, as CPython does). -/
def cont4Ok (b b1 : Nat) : Prop :=
  isCont b1 ∧ (b = 0xF0 → 0x90 ≤ b1) ∧ (b = 0xF4 → b1 < 0x90)

instance (b b1 : Nat) : Decidable (cont4Ok b b1) := by unfold cont4Ok; infer_instance

/-- Decoder worker. The `fuel` argument only drives structural recursion:
every step consumes at least one byte of input and spends exactly one unit of
fuel, so any `fuel ≥` the input length yields the untruncated decoding (see
`utf8DecodeIgnoreAux_irrel`). -/
def utf8DecodeIgnoreAux : Nat → List Nat → List Char
  | _, [] => []
  | 0, _ :: _ => []
  | fuel + 1, b :: bs =>
    if b < 0x80 then Char.ofNat b :: utf8DecodeIgnoreAux fuel bs
    else if b < 0xC2 then
      -- stray continuation byte or overlong two-byte lead (C0/C1): dropped
      utf8DecodeIgnoreAux fuel bs
    else if b < 0xE0 then
      match bs with
      | [] => []
      | b1 :: bs1 =>
        if isCont b1 then
          Char.ofNat ((b - 0xC0) * 0x40 + (b1 - 0x80)) :: utf8DecodeIgnoreAux fuel bs1
        else utf8DecodeIgnoreAux fuel (b1 :: bs1)
    else if b < 0xF0 then
      match bs with
      | [] => []
      | b1 :: bs1 =>
        if cont3Ok b b1 then
          match bs1 with
          | [] => []
          | b2 :: bs2 =>
            if isCont b2 then
              Char.ofNat ((b - 0xE0) * 0x1000 + (b1 - 0x80) * 0x40 + (b2 - 0x80))
                :: utf8DecodeIgnoreAux fuel bs2
            else utf8DecodeIgnoreAux fuel (b2 :: bs2)
        else utf8DecodeIgnoreAux fuel (b1 :: bs1)
    else if b < 0xF5 then
      match bs with
      | [] => []
      | b1 :: bs1 =>
        if cont4Ok b b1 then
          match bs1 with
          | [] => []
          | b2 :: bs2 =>
            if isCont b2 then
              match bs2 with
              | [] => []
              | b3 :: bs3 =>
                if isCont b3 then
                  Char.ofNat ((b - 0xF0) * 0x40000 + (b1 - 0x80) * 0x1000 +
                      (b2 - 0x80) * 0x40 + (b3 - 0x80)) :: utf8DecodeIgnoreAux fuel bs3
                else utf8DecodeIgnoreAux fuel (b3 :: bs3)
            else utf8DecodeIgnoreAux fuel (b2 :: bs2)
        else utf8DecodeIgnoreAux fuel (b1 :: bs1)
    else utf8DecodeIgnoreAux fuel bs

/-- Python `data.decode('utf-8', errors='ignore')`: total decoder that drops
the maximal subpart of every ill-formed sequence and emits nothing for it. -/
def utf8DecodeIgnore (l : List Nat) : List Char := utf8DecodeIgnoreAux l.length l

/-- Python `s.decode('utf-8', errors='ignore')` producing a `str`. -/
def strDecodeIgnore (data : List Nat) : String := String.mk (utf8DecodeIgnore data)

/-! ### Protocol functions (`server_code.py` lines 78-96) -/

/-- Frame size of the wire protocol (1024 bytes). -/
def FRAME_SIZE : Nat := 1024

/-- Python `b.ljust(n, b'\x00')`. -/
def ljust0 (l : List Nat) (n : Nat) : List Nat := l ++ List.replicate (n - l.length) 0

/-- Python `b.rstrip(b'\x00')`. -/
def rstrip0 (l : List Nat) : List Nat := (l.reverse.dropWhile (fun b => b == 0)).reverse

/-- `pack_message` (`server_code.py:78`): encode, truncate to the frame size
if longer, and right-pad with null bytes to exactly 1024 bytes. -/
def pack_message (msg : String) : List Nat :=
  let msg_bytes := strEncode msg
  let msg_bytes := if msg_bytes.length > FRAME_SIZE then msg_bytes.take FRAME_SIZE else msg_bytes
  ljust0 msg_bytes FRAME_SIZE

/-- `unpack_message` (`server_code.py:86`): strip trailing null bytes, then
decode UTF-8 ignoring ill-formed sequences. -/
def unpack_message (data : List Nat) : String :=
  strDecodeIgnore (rstrip0 data)

/-- Python `msg.split('/')` on the underlying character list: every `/` is a
separator, empty fields are kept. -/
def splitSlash : List Char → List (List Char)
  | [] => [[]]
  | c :: rest =>
    if c = '/' then [] :: splitSlash rest
    else
      match splitSlash rest with
      | [] => [[c]]
      | h :: t => (c :: h) :: t

/-- `parse_message` (`server_code.py:91`): split on `/` into
`(msg_code, payload_parts)`. -/
def parse_message (msg : String) : String × List String :=
  let parts := (splitSlash msg.data).map String.mk
  match parts with
  | [] => ("", [])
  | p :: rest => (p, rest)

/-- Python `"/".join(parts)`. -/
def joinSlash : List String → String
  | [] => ""
  | [s] => s
  | s :: rest => s ++ "/" ++ joinSlash rest

/-! ### Data model (`server_code.py` lines 16-72)

The `reader`/`writer` socket handles of the Python dataclass are transport
resources, not data; `last_seen : float` is modelled as a `Nat` clock value
supplied by the driver. Everything else is carried verbatim. -/

/-- `ClientSession` dataclass (`server_code.py:16`). -/
structure ClientSession where
  client_id : String
  status : String
  bot_id : String
  vars : List (String × String)
  last_seen : Nat
  logs : List String
deriving DecidableEq

/-- Default `variables` mapping of a fresh session (`server_code.py:24`). -/
def defaultVariables : List (String × String) :=
  [("BOT_ID", "NONE"), ("TICKET_TEXT", "NONE"), ("TICKET_CODE", "NONE"),
   ("TICKET_URL", "NONE"), ("ACCOUNT_EMAIL", "NONE"), ("ACCOUNT_PASSWORD", "NONE")]

/-- A freshly constructed session, with the dataclass field defaults. -/
def ClientSession.new (cid : String) (now : Nat) : ClientSession :=
  { client_id := cid, status := "INACTIVE", bot_id := "NONE",
    vars := defaultVariables, last_seen := now, logs := [] }

/-- The JSON view produced by `ClientSession.to_dict` (`server_code.py:35`). -/
structure ClientView where
  client_id : String
  status : String
  bot_id : String
  vars : List (String × String)
  last_seen : Nat
  logs : List String
deriving DecidableEq

/-- Python `l[-50:]`: the at-most-`n` most recent elements, order preserved. -/
def lastN {α : Type} (n : Nat) (l : List α) : List α := l.drop (l.length - n)

/-- `ClientSession.to_dict` (`server_code.py:35`): serialization view; only
here are the logs truncated to the last 50 entries. -/
def ClientSession.to_dict (s : ClientSession) : ClientView :=
  { client_id := s.client_id, status := s.status, bot_id := s.bot_id,
    vars := s.vars, last_seen := s.last_seen, logs := lastN 50 s.logs }

/-- `ServerState` (`server_code.py:47`). The `websocket_clients` set and the
lock are transport resources; broadcasts are modelled as emitted event lists
(`UiEvent`), and the single-threaded asyncio loop serializes handlers. -/
structure ServerState where
  clients : List (String × ClientSession)
  ticket_code_map : List (String × String)
  server_status : String
  client_counter : Nat
deriving DecidableEq

/-- The state constructed by `ServerState.__init__`. -/
def ServerState.initial : ServerState :=
  { clients := [], ticket_code_map := [], server_status := "INACTIVE", client_counter := 0 }

/-- `ServerState.get_next_client_id` (`server_code.py:57`). -/
def get_next_client_id (st : ServerState) : String × ServerState :=
  let c := st.client_counter + 1
  ("CLIENT_" ++ Nat.repr c, { st with client_counter := c })

/-- One JSON message pushed through `broadcast_to_ui` or sent on a UI
websocket. -/
inductive UiEvent where
  | client_connected (client : ClientView)
  | client_updated (client : ClientView)
  | client_disconnected (client_id : String)
  | client_log (client_id log : String)
  | clients_list (clients : List ClientView)
  | server_status (status : String)
  | ticket_map_changed (ticket_map : List (String × String))
deriving DecidableEq

/-- The `to_dict` views of all connected clients, registry order. -/
def clientsViews (st : ServerState) : List ClientView :=
  st.clients.map (fun p => p.2.to_dict)

/-! ### Command router (`handle_client_message`, `server_code.py:164`) -/

/-- Result of one `handle_client_message` call: the (possibly mutated)
session, the server state (the handler only ever reads it), the messages
passed to `send_to_client` for this agent, and the broadcast events. -/
structure MsgResult where
  session : ClientSession
  state : ServerState
  sends : List String
  events : List UiEvent
deriving DecidableEq

/-- `handle_client_message` (`server_code.py:164`). Every branch is guarded
by `if payload:`; an unrecognized leading code falls through all branches.
`CHANGE_VARIABLE_RESPONSE` only prints the result (`server_code.py:197`). -/
def handle_client_message (st : ServerState) (s : ClientSession) (msg : String) : MsgResult :=
  let (msg_code, payload) := parse_message msg
  if msg_code = "CLIENT_STATUS_RESPONSE" then
    match payload with
    | [] => ⟨s, st, [], []⟩
    | p :: _ =>
      let s' := { s with status := p }
      ⟨s', st, [], [.client_updated s'.to_dict]⟩
  else if msg_code = "CHECK_VARIABLE_REQUEST" then
    match payload with
    | [] => ⟨s, st, [], []⟩
    | var_name :: _ =>
      let value :=
        if var_name = "TICKET_CODE" then
          let ticket_text := dictGetD s.vars "TICKET_TEXT" "NONE"
          dictGetD st.ticket_code_map ticket_text "NONE"
        else dictGetD s.vars var_name "NONE"
      ⟨s, st, ["CHECK_VARIABLE_RESPONSE/" ++ value], []⟩
  else if msg_code = "CHANGE_VARIABLE_RESPONSE" then
    ⟨s, st, [], []⟩
  else if msg_code = "REPORT_CLIENT_ERROR" then
    match payload with
    | [] => ⟨s, st, [], []⟩
    | _ :: _ =>
      let line := "ERROR: " ++ joinSlash payload
      ⟨{ s with logs := s.logs ++ [line] }, st, [], [.client_log s.client_id line]⟩
  else if msg_code = "REPORT_CLIENT_FINISH" then
    match payload with
    | [] => ⟨s, st, [], []⟩
    | result :: _ =>
      let line := "FINISHED: " ++ result
      ⟨{ s with logs := s.logs ++ [line] }, st, [], [.client_log s.client_id line]⟩
  else if msg_code = "LOG_CLIENT_EVENT" ∨ msg_code = "CLIENT_LOG_EVENT" then
    match payload with
    | [] => ⟨s, st, [], []⟩
    | _ :: _ =>
      let line := joinSlash payload
      ⟨{ s with logs := s.logs ++ [line] }, st, [], [.client_log s.client_id line]⟩
  else ⟨s, st, [], []⟩

/-! ### Operator commands (`handle_ui_command`, `server_code.py:684`) -/

/-- One JSON command from the web UI. Field values are strings; for
`set_ticket_code` the two fields are `Option`s because the source guards them
with Python truthiness (`if ticket_text and code:`). -/
inductive UiCommand where
  | list_clients
  | toggle_server
  | apply_variable (clients : List String) (varName value : String)
  | send_login (clients : List String)
  | send_buy (clients : List String)
  | set_ticket_code (ticket_text code : Option String)
deriving DecidableEq

/-- Result of one `handle_ui_command` call: new state, `(client_id, message)`
pairs handed to `send_to_client`, broadcast events, and direct replies to the
issuing websocket. -/
structure UiResult where
  state : ServerState
  sends : List (String × String)
  events : List UiEvent
  replies : List UiEvent
deriving DecidableEq

/-- The `for client_id in client_ids` loop of the `apply_variable` branch
(`server_code.py:706`): mutates each present session's variable in place,
then sends `CHANGE_VARIABLE_REQUEST` to that agent. -/
def applyVariableLoop (st : ServerState) (ids : List String) (varName value : String) :
    ServerState × List (String × String) :=
  match ids with
  | [] => (st, [])
  | cid :: rest =>
    match dictGet st.clients cid with
    | none => applyVariableLoop st rest varName value
    | some s =>
      let s' := { s with vars := dictSet s.vars varName value }
      let st' := { st with clients := dictSet st.clients cid s' }
      let (stF, sends) := applyVariableLoop st' rest varName value
      (stF, (cid, "CHANGE_VARIABLE_REQUEST/" ++ varName ++ "/" ++ value) :: sends)

/-- The send loops of the `send_login` / `send_buy` branches. -/
def sendToEachLoop (st : ServerState) (ids : List String) (msg : String) :
    List (String × String) :=
  match ids with
  | [] => []
  | cid :: rest =>
    if dictMem st.clients cid then (cid, msg) :: sendToEachLoop st rest msg
    else sendToEachLoop st rest msg

/-- `handle_ui_command` (`server_code.py:684`). -/
def handle_ui_command (st : ServerState) (cmd : UiCommand) : UiResult :=
  match cmd with
  | .list_clients =>
    ⟨st, [], [], [.clients_list (clientsViews st)]⟩
  | .toggle_server =>
    let new_status := if st.server_status = "INACTIVE" then "ACTIVE" else "INACTIVE"
    ⟨{ st with server_status := new_status }, [], [.server_status new_status], []⟩
  | .apply_variable ids varName value =>
    let (st', sends) := applyVariableLoop st ids varName value
    ⟨st', sends, [.clients_list (clientsViews st')], []⟩
  | .send_login ids =>
    ⟨st, sendToEachLoop st ids "CLIENT_LOGIN", [], []⟩
  | .send_buy ids =>
    ⟨st, sendToEachLoop st ids "CLIENT_BUY_TICKET", [], []⟩
  | .set_ticket_code ticket_text code =>
    -- `if ticket_text and code:` — Python truthiness: present and non-empty
    match ticket_text, code with
    | some tt, some c =>
      if tt ≠ "" ∧ c ≠ "" then
        let st' := { st with ticket_code_map := dictSet st.ticket_code_map tt c }
        ⟨st', [], [.ticket_map_changed st'.ticket_code_map], []⟩
      else ⟨st, [], [], []⟩
    | _, _ => ⟨st, [], [], []⟩

/-! ### Connection lifecycle (`handle_client`, `server_code.py:103`)

A connection delivers a finite sequence of complete 1024-byte frames and then
hits end-of-stream (`IncompleteReadError`), which lands in the `finally`
block. The driver below is that loop with explicit state passing; in Python
the session object stored in `state.clients` is the very object the loop
mutates, so every session update is written back to the registry. The
messages sent to the agent are not needed by the lifecycle claims and are not
collected here. -/

/-- The `while True` read loop body of `handle_client` (`server_code.py:127`):
update `last_seen`, skip empty messages, otherwise dispatch. -/
def clientLoop (st : ServerState) (s : ClientSession) (frames : List (List Nat)) (now : Nat) :
    ServerState × List UiEvent :=
  match frames with
  | [] => (st, [])
  | data :: rest =>
    let s1 := { s with last_seen := now }
    let st1 := { st with clients := dictSet st.clients s.client_id s1 }
    let msg := unpack_message data
    if msg = "" then clientLoop st1 s1 rest now
    else
      let r := handle_client_message st1 s1 msg
      let st2 := { r.state with clients := dictSet r.state.clients s.client_id r.session }
      ((clientLoop st2 r.session rest now).1, r.events ++ (clientLoop st2 r.session rest now).2)

/-- One whole `handle_client` lifecycle (`server_code.py:103`): allocate an
id, register the fresh session, broadcast `client_connected`, run the read
loop, then enter the `finally` block: remove the session, close the writer
and `await writer.wait_closed()` (line 153), and finally broadcast
`client_disconnected` (line 156).

The `abortive` flag models how the transport terminated. On a graceful
end-of-stream (`abortive = false`) `wait_closed()` returns and the `finally`
block completes. On an abortive disconnect (e.g. a TCP reset,
`abortive = true`) the transport's connection-lost exception is re-raised by
`wait_closed()` inside the `finally` block, which aborts it after the
registry removal but before the `client_disconnected` broadcast — so no
disconnect event is emitted for that lifecycle. -/
def handle_client_run (st : ServerState) (frames : List (List Nat)) (abortive : Bool)
    (now : Nat) : ServerState × List UiEvent :=
  let client_id := (get_next_client_id st).1
  let session := ClientSession.new client_id now
  let st2 := { (get_next_client_id st).2 with
    clients := dictSet (get_next_client_id st).2.clients client_id session }
  let run := clientLoop st2 session frames now
  let st4 := { run.1 with clients := dictRemove run.1.clients client_id }
  if abortive then
    (st4, UiEvent.client_connected session.to_dict :: run.2)
  else
    (st4, UiEvent.client_connected session.to_dict :: run.2 ++
      [UiEvent.client_disconnected client_id])

/-- N sequential connect/disconnect cycles: each element of `cycles` is the
frame sequence of one connection together with its termination mode
(`true` = abortive close). -/
def runCycles (st : ServerState) (cycles : List (List (List Nat) × Bool)) (now : Nat) :
    ServerState × List UiEvent :=
  match cycles with
  | [] => (st, [])
  | c :: rest =>
    ((runCycles (handle_client_run st c.1 c.2 now).1 rest now).1,
      (handle_client_run st c.1 c.2 now).2 ++
        (runCycles (handle_client_run st c.1 c.2 now).1 rest now).2)

/-! ### Auxiliary definitions used by the claims -/

/-- Is this event a `client_connected` broadcast? -/
def isConnEv : UiEvent → Bool
  | .client_connected _ => true
  | _ => false

/-- Is this event a `client_disconnected` broadcast? -/
def isDiscEv : UiEvent → Bool
  | .client_disconnected _ => true
  | _ => false

/-- The leading code tokens `handle_client_message` dispatches on. -/
def recognizedCodes : List String :=
  ["CLIENT_STATUS_RESPONSE", "CHECK_VARIABLE_REQUEST", "CHANGE_VARIABLE_RESPONSE",
   "REPORT_CLIENT_ERROR", "REPORT_CLIENT_FINISH", "LOG_CLIENT_EVENT", "CLIENT_LOG_EVENT"]

/-- A server state with one freshly connected agent, as after the first
`handle_client` registration. -/
def demoState : ServerState :=
  { clients := [("CLIENT_1", ClientSession.new "CLIENT_1" 0)],
    ticket_code_map := [], server_status := "INACTIVE", client_counter := 1 }

/-- A session whose `TICKET_TEXT` variable has been set to `"VIP"`. -/
def demoVipSession : ClientSession :=
  { ClientSession.new "CLIENT_1" 0 with vars := dictSet defaultVariables "TICKET_TEXT" "VIP" }

/-- The identifiers returned by `n` successive calls of
`get_next_client_id`, starting from state `st`. -/
def allocIds (st : ServerState) : Nat → List String
  | 0 => []
  | n + 1 => (get_next_client_id st).1 :: allocIds (get_next_client_id st).2 n

/-! ## Lemmas about the codec -/

theorem utf8DecodeIgnoreAux_nil (fuel : Nat) : utf8DecodeIgnoreAux fuel [] = [] := by
  cases fuel <;> rfl

set_option maxHeartbeats 2000000 in
/-- The decoder's fuel is irrelevant as long as it covers the input length. -/
theorem utf8DecodeIgnoreAux_irrel : ∀ (fuel fuel' : Nat) (l : List Nat),
    l.length ≤ fuel → l.length ≤ fuel' →
    utf8DecodeIgnoreAux fuel l = utf8DecodeIgnoreAux fuel' l := by
  intro fuel
  induction fuel with
  | zero =>
    intro fuel' l h _
    have hl : l = [] := List.eq_nil_of_length_eq_zero (Nat.le_zero.mp h)
    subst hl
    cases fuel' <;> rfl
  | succ fuel ih =>
    intro fuel' l h h'
    cases l with
    | nil => cases fuel' <;> rfl
    | cons b bs =>
      cases fuel' with
      | zero => simp at h'
      | succ fuel' =>
        simp only [List.length_cons] at h h'
        cases bs with
        | nil => simp only [utf8DecodeIgnoreAux]
        | cons b1 bs1 =>
          simp only [List.length_cons] at h h'
          cases bs1 with
          | nil =>
            simp only [utf8DecodeIgnoreAux]
            split_ifs <;>
              first
                | rfl
                | exact ih _ _ (by (try simp only [List.length_nil, List.length_cons]); omega)
                    (by (try simp only [List.length_nil, List.length_cons]); omega)
                | (refine congrArg (List.cons _) (ih _ _ ?_ ?_) <;>
                    ((try simp only [List.length_nil, List.length_cons]); omega))
          | cons b2 bs2 =>
            simp only [List.length_cons] at h h'
            cases bs2 with
            | nil =>
              simp only [utf8DecodeIgnoreAux]
              split_ifs <;>
                first
                  | rfl
                  | exact ih _ _ (by (try simp only [List.length_nil, List.length_cons]); omega)
                      (by (try simp only [List.length_nil, List.length_cons]); omega)
                  | (refine congrArg (List.cons _) (ih _ _ ?_ ?_) <;>
                      ((try simp only [List.length_nil, List.length_cons]); omega))
            | cons b3 bs3 =>
              simp only [List.length_cons] at h h'
              simp only [utf8DecodeIgnoreAux]
              split_ifs <;>
                first
                  | rfl
                  | exact ih _ _ (by (try simp only [List.length_nil, List.length_cons]); omega)
                      (by (try simp only [List.length_nil, List.length_cons]); omega)
                  | (refine congrArg (List.cons _) (ih _ _ ?_ ?_) <;>
                      ((try simp only [List.length_nil, List.length_cons]); omega))

/-- Decoding consumes a well-formed encoded character and continues. -/
theorem utf8DecodeIgnore_encodeChar (c : Char) (bs : List Nat) :
    utf8DecodeIgnore (utf8EncodeChar c ++ bs) = c :: utf8DecodeIgnore bs := by
  have hv : Nat.isValidChar c.toNat := c.valid
  unfold Nat.isValidChar at hv
  by_cases h1 : c.toNat < 0x80
  · have he : utf8EncodeChar c = [c.toNat] := by
      simp only [utf8EncodeChar]; rw [if_pos h1]
    rw [he]
    show utf8DecodeIgnore (c.toNat :: bs) = _
    unfold utf8DecodeIgnore
    simp only [List.length_cons, utf8DecodeIgnoreAux]
    rw [if_pos h1, Char.ofNat_toNat]
  · by_cases h2 : c.toNat < 0x800
    · have he : utf8EncodeChar c = [0xC0 + c.toNat / 0x40, 0x80 + c.toNat % 0x40] := by
        simp only [utf8EncodeChar]; rw [if_neg h1, if_pos h2]
      rw [he]
      show utf8DecodeIgnore (_ :: _ :: bs) = _
      unfold utf8DecodeIgnore
      simp only [List.length_cons, utf8DecodeIgnoreAux]
      rw [if_neg (by omega), if_neg (by omega), if_pos (by omega),
        if_pos (show isCont (0x80 + c.toNat % 0x40) by unfold isCont; omega)]
      rw [show (0xC0 + c.toNat / 0x40 - 0xC0) * 0x40 + (0x80 + c.toNat % 0x40 - 0x80) =
        c.toNat from by omega, Char.ofNat_toNat]
      exact congrArg _ (utf8DecodeIgnoreAux_irrel _ _ _ (by omega) (le_refl _))
    · by_cases h3 : c.toNat < 0x10000
      · have he : utf8EncodeChar c =
            [0xE0 + c.toNat / 0x1000, 0x80 + c.toNat / 0x40 % 0x40, 0x80 + c.toNat % 0x40] := by
          simp only [utf8EncodeChar]; rw [if_neg h1, if_neg h2, if_pos h3]
        rw [he]
        show utf8DecodeIgnore (_ :: _ :: _ :: bs) = _
        unfold utf8DecodeIgnore
        simp only [List.length_cons, utf8DecodeIgnoreAux]
        rw [if_neg (by omega), if_neg (by omega), if_neg (by omega), if_pos (by omega),
          if_pos (show cont3Ok (0xE0 + c.toNat / 0x1000) (0x80 + c.toNat / 0x40 % 0x40) by
            unfold cont3Ok isCont; omega),
          if_pos (show isCont (0x80 + c.toNat % 0x40) by unfold isCont; omega)]
        rw [show (0xE0 + c.toNat / 0x1000 - 0xE0) * 0x1000 +
            (0x80 + c.toNat / 0x40 % 0x40 - 0x80) * 0x40 + (0x80 + c.toNat % 0x40 - 0x80) =
          c.toNat from by omega, Char.ofNat_toNat]
        exact congrArg _ (utf8DecodeIgnoreAux_irrel _ _ _ (by omega) (le_refl _))
      · have he : utf8EncodeChar c =
            [0xF0 + c.toNat / 0x40000, 0x80 + c.toNat / 0x1000 % 0x40,
             0x80 + c.toNat / 0x40 % 0x40, 0x80 + c.toNat % 0x40] := by
          simp only [utf8EncodeChar]; rw [if_neg h1, if_neg h2, if_neg h3]
        rw [he]
        show utf8DecodeIgnore (_ :: _ :: _ :: _ :: bs) = _
        unfold utf8DecodeIgnore
        simp only [List.length_cons, utf8DecodeIgnoreAux]
        rw [if_neg (by omega), if_neg (by omega), if_neg (by omega), if_neg (by omega),
          if_pos (by omega),
          if_pos (show cont4Ok (0xF0 + c.toNat / 0x40000) (0x80 + c.toNat / 0x1000 % 0x40) by
            unfold cont4Ok isCont; omega),
          if_pos (show isCont (0x80 + c.toNat / 0x40 % 0x40) by unfold isCont; omega),
          if_pos (show isCont (0x80 + c.toNat % 0x40) by unfold isCont; omega)]
        rw [show (0xF0 + c.toNat / 0x40000 - 0xF0) * 0x40000 +
            (0x80 + c.toNat / 0x1000 % 0x40 - 0x80) * 0x1000 +
            (0x80 + c.toNat / 0x40 % 0x40 - 0x80) * 0x40 + (0x80 + c.toNat % 0x40 - 0x80) =
          c.toNat from by omega, Char.ofNat_toNat]
        exact congrArg _ (utf8DecodeIgnoreAux_irrel _ _ _ (by omega) (le_refl _))

/-- Decoding the encoding of any character sequence is the identity. -/
theorem utf8DecodeIgnore_utf8Encode : ∀ l : List Char, utf8DecodeIgnore (utf8Encode l) = l
  | [] => rfl
  | c :: cs => by
    show utf8DecodeIgnore (utf8EncodeChar c ++ utf8Encode cs) = _
    rw [utf8DecodeIgnore_encodeChar, utf8DecodeIgnore_utf8Encode cs]

theorem dropWhile_zero_replicate_append (k : Nat) (xs : List Nat) :
    List.dropWhile (fun b => b == 0) (List.replicate k 0 ++ xs) =
    List.dropWhile (fun b => b == 0) xs := by
  induction k with
  | zero => rfl
  | succ k ih => simp [List.replicate_succ, List.dropWhile_cons, ih]

/-- Stripping trailing nulls ignores appended null padding. -/
theorem rstrip0_append_replicate (l : List Nat) (k : Nat) :
    rstrip0 (l ++ List.replicate k 0) = rstrip0 l := by
  unfold rstrip0
  rw [List.reverse_append, List.reverse_replicate, dropWhile_zero_replicate_append]

/-- Stripping trailing nulls is the identity when the last byte is not null. -/
theorem rstrip0_of_getLast? (l : List Nat) (h : l.getLast? ≠ some 0) : rstrip0 l = l := by
  unfold rstrip0
  cases hrev : l.reverse with
  | nil =>
    have : l = [] := by simpa using congrArg List.reverse hrev
    simp [this]
  | cons x xs =>
    have hx : x ≠ 0 := by
      intro h0
      apply h
      rw [List.getLast?_eq_head?_reverse, hrev, h0]
      rfl
    rw [List.dropWhile_cons]
    simp only [beq_iff_eq, hx, if_false]
    rw [← hrev, List.reverse_reverse]

theorem utf8EncodeChar_ne_nil (c : Char) : utf8EncodeChar c ≠ [] := by
  simp only [utf8EncodeChar]
  split_ifs <;> simp

theorem utf8Encode_cons_ne_nil (c : Char) (cs : List Char) : utf8Encode (c :: cs) ≠ [] := by
  show utf8EncodeChar c ++ utf8Encode cs ≠ []
  simp [utf8EncodeChar_ne_nil c]

/-- The last byte of an encoded character is null only for U+0000. -/
theorem getLast?_utf8EncodeChar (c : Char) (h : c ≠ Char.ofNat 0) :
    (utf8EncodeChar c).getLast? ≠ some 0 := by
  have hn : c.toNat ≠ 0 := by
    intro h0
    apply h
    rw [← Char.ofNat_toNat c, h0]
  simp only [utf8EncodeChar]
  split_ifs <;> simp <;> omega

/-- The encoding of a sequence not ending in U+0000 does not end in a null
byte. -/
theorem getLast?_utf8Encode : ∀ l : List Char, l.getLast? ≠ some (Char.ofNat 0) →
    (utf8Encode l).getLast? ≠ some 0
  | [], _ => by simp [utf8Encode]
  | [c], h => by
    have : utf8Encode [c] = utf8EncodeChar c := by
      show utf8EncodeChar c ++ [] = _
      simp
    rw [this]
    exact getLast?_utf8EncodeChar c (by simpa using h)
  | c :: c2 :: cs2, h => by
    have hrec := getLast?_utf8Encode (c2 :: cs2) (by simpa [List.getLast?_cons_cons] using h)
    obtain ⟨y, hy⟩ : ∃ y, (utf8Encode (c2 :: cs2)).getLast? = some y := by
      cases he : (utf8Encode (c2 :: cs2)).getLast? with
      | none =>
        exact absurd (List.getLast?_eq_none_iff.mp he) (utf8Encode_cons_ne_nil c2 cs2)
      | some y => exact ⟨y, rfl⟩
    show (utf8EncodeChar c ++ utf8Encode (c2 :: cs2)).getLast? ≠ some 0
    rw [List.getLast?_append, hy]
    rw [hy] at hrec
    simpa using hrec

/-! ## Claims C2, C3, C4: the frame codec -/

/-- A message whose UTF-8 encoding is 1025 bytes long. -/
def overlongMsg : String := String.mk (List.replicate 1025 'a')

/-- A message whose last character is U+0000. -/
def nulTailMsg : String := String.mk ['a', Char.ofNat 0]

/-- Oversized messages are packed as the first 1024 bytes of their
encoding. -/
theorem pack_message_eq_take (s : String) (h : FRAME_SIZE < (strEncode s).length) :
    pack_message s = (strEncode s).take FRAME_SIZE := by
  show ljust0 (if (strEncode s).length > FRAME_SIZE then (strEncode s).take FRAME_SIZE
    else strEncode s) FRAME_SIZE = _
  rw [if_pos h]
  unfold ljust0
  have hlen : ((strEncode s).take FRAME_SIZE).length = FRAME_SIZE := by
    rw [List.length_take]
    omega
  rw [hlen]
  simp

/-- C2 counterexample: the claim says an oversized message makes `pack_message`
fail with `FrameTooLarge` and is never silently truncated; on a 1025-byte
message the code instead returns a frame holding the first 1024 bytes, and
decoding that frame yields the silently-truncated message. -/
theorem claim_C2_counterexample :
    pack_message overlongMsg = List.replicate 1024 97 ∧
    unpack_message (pack_message overlongMsg) = String.mk (List.replicate 1024 'a') ∧
    String.mk (List.replicate 1024 'a') ≠ overlongMsg := by
  refine ⟨?_, by decide, by decide⟩
  rw [pack_message_eq_take overlongMsg (by decide)]
  decide

/-- C2 (amended): for every message whose UTF-8 encoding exceeds the frame
size, `pack_message` silently truncates the encoding to its first 1024 bytes
and returns that full frame; it signals no error. -/
theorem claim_C2_pack_truncates (s : String) (h : FRAME_SIZE < (strEncode s).length) :
    pack_message s = (strEncode s).take FRAME_SIZE :=
  pack_message_eq_take s h

/-- C2 witness: the amended truncation theorem applied to the 1025-byte
message. -/
theorem claim_C2_witness :
    FRAME_SIZE < (strEncode overlongMsg).length ∧
    pack_message overlongMsg = (strEncode overlongMsg).take FRAME_SIZE :=
  ⟨by decide, claim_C2_pack_truncates overlongMsg (by decide)⟩

/-- C3 counterexample: the round-trip claim quantifies over every string whose
encoding fits the frame; it fails for a two-character message ending in
U+0000, whose trailing null byte is eaten by `rstrip`. -/
theorem claim_C3_counterexample :
    (strEncode nulTailMsg).length ≤ FRAME_SIZE ∧
    unpack_message (pack_message nulTailMsg) ≠ nulTailMsg ∧
    unpack_message (pack_message nulTailMsg) = "a" := by
  refine ⟨by decide, by decide, by decide⟩

/-- C3 (amended): for every UTF-8 string whose encoding is at most the frame
size (1024 bytes) and that does not end in the character U+0000,
`unpack_message (pack_message s) = s`. -/
theorem claim_C3_roundtrip (s : String) (hlen : (strEncode s).length ≤ FRAME_SIZE)
    (hlast : s.data.getLast? ≠ some (Char.ofNat 0)) :
    unpack_message (pack_message s) = s := by
  have h1 : pack_message s =
      utf8Encode s.data ++ List.replicate (FRAME_SIZE - (utf8Encode s.data).length) 0 := by
    show ljust0 (if (strEncode s).length > FRAME_SIZE then
      (strEncode s).take FRAME_SIZE else strEncode s) FRAME_SIZE = _
    rw [if_neg (by omega)]
    rfl
  rw [h1]
  unfold unpack_message strDecodeIgnore
  rw [rstrip0_append_replicate, rstrip0_of_getLast? _ (getLast?_utf8Encode s.data hlast),
    utf8DecodeIgnore_utf8Encode]

/-- C3 witness: the round-trip theorem applied to a concrete protocol
message. -/
theorem claim_C3_witness :
    (strEncode "CHECK_VARIABLE_RESPONSE/C1").length ≤ FRAME_SIZE ∧
    "CHECK_VARIABLE_RESPONSE/C1".data.getLast? ≠ some (Char.ofNat 0) ∧
    unpack_message (pack_message "CHECK_VARIABLE_RESPONSE/C1") = "CHECK_VARIABLE_RESPONSE/C1" :=
  ⟨by decide, by decide, claim_C3_roundtrip "CHECK_VARIABLE_RESPONSE/C1" (by decide) (by decide)⟩

/-- C4 counterexample: on a 1024-byte frame containing `A` followed by the
invalid byte `0xFF`, the claim demands the replacement character U+FFFD for
the invalid sequence, i.e. the result `"A�"`; the code's
`errors='ignore'` decoder instead drops the byte and returns `"A"`. -/
theorem claim_C4_counterexample :
    (0x41 :: 0xFF :: List.replicate 1022 0).length = FRAME_SIZE ∧
    unpack_message (0x41 :: 0xFF :: List.replicate 1022 0) = "A" ∧
    "A" ≠ String.mk ['A', Char.ofNat 0xFFFD] := by
  refine ⟨by decide, by decide, by decide⟩

/-- C4 (amended): frame decoding is total — modelled by `unpack_message`
being a total function, as `errors='ignore'` never raises — it strips any
amount of trailing null padding, and it drops (rather than replaces with
U+FFFD) bytes that cannot start a valid UTF-8 sequence, as witnessed by the
invalid lead byte `0xFF`. -/
theorem claim_C4_decode_total_strips_drops :
    (∀ (l : List Nat) (k : Nat), unpack_message (l ++ List.replicate k 0) = unpack_message l) ∧
    (∀ bs : List Nat, utf8DecodeIgnore (0xFF :: bs) = utf8DecodeIgnore bs) := by
  constructor
  · intro l k
    unfold unpack_message
    rw [rstrip0_append_replicate]
  · intro bs
    show utf8DecodeIgnoreAux (bs.length + 1) (0xFF :: bs) = _
    simp only [utf8DecodeIgnoreAux]
    rw [if_neg (by omega), if_neg (by omega), if_neg (by omega), if_neg (by omega),
      if_neg (by omega)]
    rfl

/-! ## Lemmas about the dict model -/

theorem dictGet_dictSet_self {α : Type} (m : List (String × α)) (k : String) (v : α) :
    dictGet (dictSet m k v) k = some v := by
  induction m with
  | nil => simp [dictSet, dictGet]
  | cons p rest ih =>
    obtain ⟨k', v'⟩ := p
    by_cases h : k' = k
    · simp [dictSet, dictGet, h]
    · simp [dictSet, dictGet, h, ih]

/-! ## Claim C1: variable-change acknowledgement -/

/-- C1 counterexample: push `BOT_ID="x7"` to a freshly connected agent whose
registry copy is the default `"NONE"`: the registry copy reads `"x7"` already
before any response, and the subsequent `CHANGE_VARIABLE_RESPONSE/FAIL` leaves
all state untouched — so the registry keeps `"x7"`, not the prior value, and
the update was not gated on SUCCESS. -/
theorem claim_C1_counterexample :
    let push := handle_ui_command demoState (.apply_variable ["CLIENT_1"] "BOT_ID" "x7")
    let s := (dictGet push.state.clients "CLIENT_1").getD (ClientSession.new "CLIENT_1" 0)
    let ack := handle_client_message push.state s "CHANGE_VARIABLE_RESPONSE/FAIL"
    dictGet (ClientSession.new "CLIENT_1" 0).vars "BOT_ID" = some "NONE" ∧
    dictGet s.vars "BOT_ID" = some "x7" ∧
    ack.session = s ∧ ack.state = push.state ∧ ack.sends = [] ∧ ack.events = [] := by
  decide

/-- C1 (amended): the registry copy of a targeted agent's variable is set to
the new value immediately when the operator pushes `apply_variable`, before
and regardless of any acknowledgement; a `CHANGE_VARIABLE_RESPONSE` (whether
SUCCESS or FAIL) is only logged and never changes any session, registry or
ticket-map state. -/
theorem claim_C1_eager_no_ack_gate :
    (∀ (st : ServerState) (cid : String) (s : ClientSession) (varName value : String),
      dictGet st.clients cid = some s →
      dictGet ((handle_ui_command st (.apply_variable [cid] varName value)).state.clients) cid =
        some { s with vars := dictSet s.vars varName value }) ∧
    (∀ (st : ServerState) (s : ClientSession) (msg : String),
      (parse_message msg).1 = "CHANGE_VARIABLE_RESPONSE" →
      handle_client_message st s msg = ⟨s, st, [], []⟩) := by
  constructor
  · intro st cid s varName value hs
    simp only [handle_ui_command, applyVariableLoop, hs]
    exact dictGet_dictSet_self _ _ _
  · intro st s msg
    rcases hpm : parse_message msg with ⟨code, pl⟩
    intro h
    simp only [hpm] at h
    subst h
    unfold handle_client_message
    rw [hpm]
    dsimp only
    rw [if_neg (by decide), if_neg (by decide), if_pos rfl]

/-- C1 witness: the amended theorem applied to the one-agent demo state and
the FAIL acknowledgement. -/
theorem claim_C1_witness :
    (dictGet demoState.clients "CLIENT_1" = some (ClientSession.new "CLIENT_1" 0) ∧
      dictGet ((handle_ui_command demoState
          (.apply_variable ["CLIENT_1"] "BOT_ID" "x7")).state.clients) "CLIENT_1" =
        some { ClientSession.new "CLIENT_1" 0 with
          vars := dictSet (ClientSession.new "CLIENT_1" 0).vars "BOT_ID" "x7" }) ∧
    ((parse_message "CHANGE_VARIABLE_RESPONSE/FAIL").1 = "CHANGE_VARIABLE_RESPONSE" ∧
      handle_client_message demoState (ClientSession.new "CLIENT_1" 0)
        "CHANGE_VARIABLE_RESPONSE/FAIL" = ⟨ClientSession.new "CLIENT_1" 0, demoState, [], []⟩) :=
  ⟨⟨by decide, claim_C1_eager_no_ack_gate.1 demoState "CLIENT_1" (ClientSession.new "CLIENT_1" 0)
      "BOT_ID" "x7" (by decide)⟩,
   ⟨by decide, claim_C1_eager_no_ack_gate.2 demoState (ClientSession.new "CLIENT_1" 0)
      "CHANGE_VARIABLE_RESPONSE/FAIL" (by decide)⟩⟩

/-! ## Claim C5: the log buffer bound -/

/-- C5 counterexample: after 51 `REPORT_CLIENT_ERROR` messages the session's
stored log list holds 51 entries — the stored sequence is not bounded by 50;
only the `to_dict` serialization view is. -/
theorem claim_C5_counterexample :
    ((List.replicate 51 "REPORT_CLIENT_ERROR/e").foldl
        (fun s m => (handle_client_message demoState s m).session)
        (ClientSession.new "CLIENT_1" 0)).logs.length = 51 ∧
    ¬ ((List.replicate 51 "REPORT_CLIENT_ERROR/e").foldl
        (fun s m => (handle_client_message demoState s m).session)
        (ClientSession.new "CLIENT_1" 0)).logs.length ≤ 50 := by
  refine ⟨by decide, by decide⟩

/-- C5 (amended): the stored log list grows without bound (the handler only
ever appends at the tail, preserving insertion order), and the serialized
view `to_dict` exposes at most 50 entries, a suffix — i.e. the most recently
appended entries — of the stored log in order. -/
theorem claim_C5_view_bounded :
    (∀ s : ClientSession, s.to_dict.logs.length ≤ 50) ∧
    (∀ s : ClientSession, s.to_dict.logs <:+ s.logs) ∧
    (∀ (st : ServerState) (s : ClientSession) (msg : String),
      ∃ t, (handle_client_message st s msg).session.logs = s.logs ++ t) := by
  refine ⟨?_, ?_, ?_⟩
  · intro s
    show (lastN 50 s.logs).length ≤ 50
    unfold lastN
    rw [List.length_drop]
    omega
  · intro s
    exact List.drop_suffix _ _
  · intro st s msg
    unfold handle_client_message
    rcases parse_message msg with ⟨code, pl⟩
    dsimp only
    split_ifs <;> rcases pl with _ | ⟨p, ps⟩ <;>
      first
        | exact ⟨_, rfl⟩
        | (refine ⟨[], ?_⟩; simp)

/-! ## Claim C6: ticket-code resolution -/

/-- C6: after the operator stores code `"C1"` under key `"VIP"`, an agent
whose `TICKET_TEXT` is `"VIP"` asking for `TICKET_CODE` is sent `"C1"`
(resolved through the ticket-code map, last writer wins); when the agent's
`TICKET_TEXT` key is absent from the map the sentinel `"NONE"` is sent, and
the handler never fails. -/
theorem claim_C6_ticket_code_resolution :
    (∀ (st : ServerState) (s : ClientSession),
      dictGetD s.vars "TICKET_TEXT" "NONE" = "VIP" →
      (handle_client_message
          ((handle_ui_command st (.set_ticket_code (some "VIP") (some "C1"))).state)
          s "CHECK_VARIABLE_REQUEST/TICKET_CODE").sends = ["CHECK_VARIABLE_RESPONSE/C1"]) ∧
    (∀ (st : ServerState) (s : ClientSession),
      dictGet st.ticket_code_map (dictGetD s.vars "TICKET_TEXT" "NONE") = none →
      (handle_client_message st s "CHECK_VARIABLE_REQUEST/TICKET_CODE").sends =
        ["CHECK_VARIABLE_RESPONSE/NONE"]) := by
  constructor
  · intro st s h
    show ["CHECK_VARIABLE_RESPONSE/" ++
      dictGetD ((handle_ui_command st (.set_ticket_code (some "VIP") (some "C1"))).state).ticket_code_map
        (dictGetD s.vars "TICKET_TEXT" "NONE") "NONE"] = _
    rw [h]
    have hmap : ((handle_ui_command st
        (.set_ticket_code (some "VIP") (some "C1"))).state).ticket_code_map =
        dictSet st.ticket_code_map "VIP" "C1" := rfl
    rw [hmap]
    unfold dictGetD
    rw [dictGet_dictSet_self]
    rfl
  · intro st s h
    show ["CHECK_VARIABLE_RESPONSE/" ++
      dictGetD st.ticket_code_map (dictGetD s.vars "TICKET_TEXT" "NONE") "NONE"] = _
    generalize dictGetD s.vars "TICKET_TEXT" "NONE" = tt at h ⊢
    unfold dictGetD
    rw [h]
    rfl

/-- C6 witness: the resolution theorem applied to the demo state and a
session whose `TICKET_TEXT` is `"VIP"`. -/
theorem claim_C6_witness :
    (dictGetD demoVipSession.vars "TICKET_TEXT" "NONE" = "VIP" ∧
      (handle_client_message
          ((handle_ui_command demoState (.set_ticket_code (some "VIP") (some "C1"))).state)
          demoVipSession "CHECK_VARIABLE_REQUEST/TICKET_CODE").sends =
        ["CHECK_VARIABLE_RESPONSE/C1"]) ∧
    (dictGet demoState.ticket_code_map (dictGetD demoVipSession.vars "TICKET_TEXT" "NONE") = none ∧
      (handle_client_message demoState demoVipSession "CHECK_VARIABLE_REQUEST/TICKET_CODE").sends =
        ["CHECK_VARIABLE_RESPONSE/NONE"]) :=
  ⟨⟨by decide, claim_C6_ticket_code_resolution.1 demoState demoVipSession (by decide)⟩,
   ⟨by decide, claim_C6_ticket_code_resolution.2 demoState demoVipSession (by decide)⟩⟩

/-! ## Claim C8: unknown or malformed messages are dropped -/

/-- C8: a message whose leading code token is unrecognized, or whose payload
is empty, produces no session mutation, no state mutation, no send and no
broadcast — the handler returns everything unchanged (and, being a total
function, raises nothing, so the read loop keeps the connection open). -/
theorem claim_C8_unknown_or_empty_noop :
    ∀ (st : ServerState) (s : ClientSession) (msg : String),
      ((parse_message msg).1 ∉ recognizedCodes ∨ (parse_message msg).2 = []) →
      handle_client_message st s msg = ⟨s, st, [], []⟩ := by
  intro st s msg
  rcases hpm : parse_message msg with ⟨code, pl⟩
  intro h
  simp only [hpm] at h
  unfold handle_client_message
  rw [hpm]
  dsimp only
  rcases h with h | h
  · simp only [recognizedCodes, List.mem_cons, List.not_mem_nil, or_false, not_or] at h
    obtain ⟨h1, h2, h3, h4, h5, h6, h7⟩ := h
    rw [if_neg h1, if_neg h2, if_neg h3, if_neg h4, if_neg h5, if_neg (not_or.mpr ⟨h6, h7⟩)]
  · subst h
    split_ifs <;> rfl

/-- C8 witness: the no-op theorem applied to an unknown code and to a known
code with missing payload. -/
theorem claim_C8_witness :
    (((parse_message "BOGUS_CODE/x").1 ∉ recognizedCodes ∨ (parse_message "BOGUS_CODE/x").2 = []) ∧
      handle_client_message demoState (ClientSession.new "CLIENT_1" 0) "BOGUS_CODE/x" =
        ⟨ClientSession.new "CLIENT_1" 0, demoState, [], []⟩) ∧
    (((parse_message "CLIENT_STATUS_RESPONSE").1 ∉ recognizedCodes ∨
        (parse_message "CLIENT_STATUS_RESPONSE").2 = []) ∧
      handle_client_message demoState (ClientSession.new "CLIENT_1" 0) "CLIENT_STATUS_RESPONSE" =
        ⟨ClientSession.new "CLIENT_1" 0, demoState, [], []⟩) :=
  ⟨⟨by decide, claim_C8_unknown_or_empty_noop demoState (ClientSession.new "CLIENT_1" 0)
      "BOGUS_CODE/x" (by decide)⟩,
   ⟨by decide, claim_C8_unknown_or_empty_noop demoState (ClientSession.new "CLIENT_1" 0)
      "CLIENT_STATUS_RESPONSE" (by decide)⟩⟩

/-! ## Claim C10: empty-string guard on ticket-code writes -/

/-- C10: a `set_ticket_code` command whose ticket text or code is missing or
empty leaves the whole server state (in particular the ticket-code map)
unchanged and emits no event at all — so an existing code can never be
overwritten with an empty value through this command. -/
theorem claim_C10_empty_guard :
    ∀ (st : ServerState) (tt code : Option String),
      (tt = none ∨ tt = some "" ∨ code = none ∨ code = some "") →
      handle_ui_command st (.set_ticket_code tt code) = ⟨st, [], [], []⟩ := by
  intro st tt code h
  rcases tt with _ | tt
  · rfl
  · rcases code with _ | code
    · rfl
    · have hempty : tt = "" ∨ code = "" := by
        rcases h with h | h | h | h <;> simp_all
      simp only [handle_ui_command]
      rw [if_neg ?_]
      rcases hempty with h' | h' <;> simp [h']

/-- C10 witness: the guard theorem applied to an empty code field. -/
theorem claim_C10_witness :
    ((some "VIP" = (none : Option String) ∨ (some "VIP" : Option String) = some "" ∨
        (some "" : Option String) = none ∨ (some "" : Option String) = some "") ∧
      handle_ui_command demoState (.set_ticket_code (some "VIP") (some "")) =
        ⟨demoState, [], [], []⟩) :=
  ⟨by decide, claim_C10_empty_guard demoState (some "VIP") (some "") (by decide)⟩

/-! ## Claim C7: connection lifecycle -/

/-- `handle_client_message` never mutates the server state. -/
theorem handle_client_message_state (st : ServerState) (s : ClientSession) (msg : String) :
    (handle_client_message st s msg).state = st := by
  unfold handle_client_message
  rcases parse_message msg with ⟨code, pl⟩
  dsimp only
  split_ifs <;> rcases pl with _ | ⟨p, ps⟩ <;> rfl

/-- `handle_client_message` never changes the session identity. -/
theorem handle_client_message_client_id (st : ServerState) (s : ClientSession) (msg : String) :
    (handle_client_message st s msg).session.client_id = s.client_id := by
  unfold handle_client_message
  rcases parse_message msg with ⟨code, pl⟩
  dsimp only
  split_ifs <;> rcases pl with _ | ⟨p, ps⟩ <;> rfl

/-- `handle_client_message` broadcasts only `client_updated` / `client_log`
events, never lifecycle events. -/
theorem handle_client_message_no_lifecycle (st : ServerState) (s : ClientSession) (msg : String) :
    (handle_client_message st s msg).events.countP isConnEv = 0 ∧
    (handle_client_message st s msg).events.countP isDiscEv = 0 := by
  unfold handle_client_message
  rcases parse_message msg with ⟨code, pl⟩
  dsimp only
  split_ifs <;> rcases pl with _ | ⟨p, ps⟩ <;> exact ⟨rfl, rfl⟩

/-- The read loop broadcasts no lifecycle events either. -/
theorem clientLoop_no_lifecycle (now : Nat) : ∀ (frames : List (List Nat)) (st : ServerState)
    (s : ClientSession), (clientLoop st s frames now).2.countP isConnEv = 0 ∧
    (clientLoop st s frames now).2.countP isDiscEv = 0 := by
  intro frames
  induction frames with
  | nil => intro st s; exact ⟨rfl, rfl⟩
  | cons f rest ih =>
    intro st s
    rw [clientLoop]
    dsimp only
    split_ifs
    · exact ih _ _
    · rw [List.countP_append, List.countP_append]
      rw [(handle_client_message_no_lifecycle _ _ _).1,
        (handle_client_message_no_lifecycle _ _ _).2,
        (ih _ _).1, (ih _ _).2]
      exact ⟨rfl, rfl⟩

theorem mem_map_fst_dictSet {α : Type} (m : List (String × α)) (k : String) (v : α) (a : String) :
    a ∈ (dictSet m k v).map Prod.fst ↔ a ∈ m.map Prod.fst ∨ a = k := by
  induction m with
  | nil => simp [dictSet]
  | cons p rest ih =>
    obtain ⟨k', v'⟩ := p
    by_cases h : k' = k
    · subst h
      simp [dictSet]
      tauto
    · simp only [dictSet, if_neg h, List.map_cons, List.mem_cons, ih]
      tauto

theorem nodup_map_fst_dictSet {α : Type} (m : List (String × α)) (k : String) (v : α)
    (h : (m.map Prod.fst).Nodup) : ((dictSet m k v).map Prod.fst).Nodup := by
  induction m with
  | nil => simp [dictSet]
  | cons p rest ih =>
    obtain ⟨k', v'⟩ := p
    simp only [List.map_cons, List.nodup_cons] at h
    by_cases hk : k' = k
    · subst hk
      simpa [dictSet, List.nodup_cons] using h
    · simp only [dictSet, if_neg hk, List.map_cons, List.nodup_cons]
      refine ⟨?_, ih h.2⟩
      rw [mem_map_fst_dictSet]
      rintro (hm | hm)
      · exact h.1 hm
      · exact hk hm

theorem dictGet_eq_none {α : Type} (m : List (String × α)) (k : String)
    (h : k ∉ m.map Prod.fst) : dictGet m k = none := by
  induction m with
  | nil => rfl
  | cons p rest ih =>
    obtain ⟨k', v'⟩ := p
    simp only [List.map_cons, List.mem_cons, not_or] at h
    have hne : ¬ k' = k := fun he => h.1 he.symm
    simp only [dictGet]
    rw [if_neg hne]
    exact ih h.2

theorem dictGet_dictRemove_self {α : Type} (m : List (String × α)) (k : String)
    (h : (m.map Prod.fst).Nodup) : dictGet (dictRemove m k) k = none := by
  induction m with
  | nil => rfl
  | cons p rest ih =>
    obtain ⟨k', v'⟩ := p
    simp only [List.map_cons, List.nodup_cons] at h
    by_cases hk : k' = k
    · subst hk
      simp only [dictRemove, if_pos rfl]
      exact dictGet_eq_none rest k' h.1
    · simp only [dictRemove, if_neg hk, dictGet, if_neg hk]
      exact ih h.2

/-- The read loop preserves distinctness of the registry's keys. -/
theorem clientLoop_nodup (now : Nat) : ∀ (frames : List (List Nat)) (st : ServerState)
    (s : ClientSession), (st.clients.map Prod.fst).Nodup →
    ((clientLoop st s frames now).1.clients.map Prod.fst).Nodup := by
  intro frames
  induction frames with
  | nil => intro st s h; exact h
  | cons f rest ih =>
    intro st s h
    rw [clientLoop]
    dsimp only
    split_ifs
    · exact ih _ _ (nodup_map_fst_dictSet _ _ _ h)
    · apply ih
      rw [handle_client_message_state]
      exact nodup_map_fst_dictSet _ _ _ (nodup_map_fst_dictSet _ _ _ h)

/-- One lifecycle always emits exactly one `client_connected`; it emits one
`client_disconnected` on a graceful close and none on an abortive close. -/
theorem handle_client_run_counts (st : ServerState) (frames : List (List Nat))
    (abortive : Bool) (now : Nat) :
    (handle_client_run st frames abortive now).2.countP isConnEv = 1 ∧
    (handle_client_run st frames abortive now).2.countP isDiscEv =
      (if abortive then 0 else 1) := by
  rw [handle_client_run]
  dsimp only
  cases abortive
  · constructor
    · rw [if_neg (by simp), List.countP_append, List.countP_cons,
        (clientLoop_no_lifecycle now frames _ _).1]
      rfl
    · rw [if_neg (by simp), List.countP_append, List.countP_cons,
        (clientLoop_no_lifecycle now frames _ _).2]
      rfl
  · constructor
    · rw [if_pos rfl, List.countP_cons, (clientLoop_no_lifecycle now frames _ _).1]
      rfl
    · rw [if_pos rfl, List.countP_cons, (clientLoop_no_lifecycle now frames _ _).2]
      rfl

/-- C7 (code bug): the claim — exactly one `client_disconnected` per
lifecycle, socket accept through socket close or error — fails on an
abortive disconnect. At the failing input (an agent connects to the fresh
hub and its connection is reset), the run emits only the `client_connected`
event: the connection-lost error re-raised by `writer.wait_closed()`
(server_code.py:153) aborts the `finally` block before the broadcast at line
156, although the session has already been removed from the registry. In
general a lifecycle always emits exactly one `client_connected`, but emits a
`client_disconnected` only when the close is graceful, and over any sequence
of cycles the number of disconnect events is the number of gracefully closed
cycles, not the number of cycles. -/
theorem claim_C7_missing_disconnect :
    (handle_client_run ServerState.initial [] true 0).2 =
      [UiEvent.client_connected (ClientSession.new "CLIENT_1" 0).to_dict] ∧
    (handle_client_run ServerState.initial [] true 0).2.countP isDiscEv = 0 ∧
    dictGet (handle_client_run ServerState.initial [] true 0).1.clients "CLIENT_1" = none ∧
    (∀ (st : ServerState) (frames : List (List Nat)) (abortive : Bool) (now : Nat),
      (handle_client_run st frames abortive now).2.countP isConnEv = 1 ∧
      (handle_client_run st frames abortive now).2.countP isDiscEv =
        (if abortive then 0 else 1)) ∧
    (∀ (st : ServerState) (cycles : List (List (List Nat) × Bool)) (now : Nat),
      (runCycles st cycles now).2.countP isConnEv = cycles.length ∧
      (runCycles st cycles now).2.countP isDiscEv =
        (cycles.filter (fun c => !c.2)).length) := by
  refine ⟨by decide, by decide, by decide, handle_client_run_counts, ?_⟩
  intro st cycles now
  induction cycles generalizing st with
  | nil => exact ⟨rfl, rfl⟩
  | cons c rest ih =>
    rw [runCycles]
    dsimp only
    rw [List.countP_append, List.countP_append,
      (handle_client_run_counts st c.1 c.2 now).1, (handle_client_run_counts st c.1 c.2 now).2,
      (ih _).1, (ih _).2]
    cases hc : c.2 <;> simp [hc, Nat.add_comm]

/-! ## Claim C9: identifier allocation

`get_next_client_id` renders the incremented counter with Python's decimal
formatting, embedded as Lean's decimal `Nat.repr`. The lemmas below prove
that `Nat.repr` is injective, so distinct counters give distinct ids. -/

theorem toDigitsCore_append : ∀ (fuel n : Nat) (ds : List Char),
    Nat.toDigitsCore 10 fuel n ds = Nat.toDigitsCore 10 fuel n [] ++ ds := by
  intro fuel
  induction fuel with
  | zero => intro n ds; rfl
  | succ fuel ih =>
    intro n ds
    by_cases h : n / 10 = 0
    · simp [Nat.toDigitsCore, h]
    · simp only [Nat.toDigitsCore, h, if_false]
      rw [ih (n / 10) (Nat.digitChar (n % 10) :: ds), ih (n / 10) [Nat.digitChar (n % 10)]]
      simp

theorem toDigitsCore_fuel : ∀ (n fuel fuel' : Nat), n < fuel → n < fuel' →
    Nat.toDigitsCore 10 fuel n [] = Nat.toDigitsCore 10 fuel' n [] := by
  intro n
  induction n using Nat.strong_induction_on with
  | _ n ih =>
    intro fuel fuel' hf hf'
    cases fuel with
    | zero => omega
    | succ fuel =>
      cases fuel' with
      | zero => omega
      | succ fuel' =>
        by_cases h : n / 10 = 0
        · simp [Nat.toDigitsCore, h]
        · simp only [Nat.toDigitsCore, h, if_false]
          rw [toDigitsCore_append fuel, toDigitsCore_append fuel']
          have hn : n / 10 < n := by omega
          rw [ih (n / 10) hn fuel fuel' (by omega) (by omega)]

/-- A number below ten renders as its single digit character. -/
theorem toDigits_lt10 (n : Nat) (h : n < 10) : Nat.toDigits 10 n = [Nat.digitChar n] := by
  unfold Nat.toDigits
  have h0 : n / 10 = 0 := Nat.div_eq_of_lt h
  simp [Nat.toDigitsCore, h0, Nat.mod_eq_of_lt h]

/-- A number of at least ten renders as its leading digits followed by its
last digit. -/
theorem toDigits_ge10 (n : Nat) (h : 10 ≤ n) :
    Nat.toDigits 10 n = Nat.toDigits 10 (n / 10) ++ [Nat.digitChar (n % 10)] := by
  unfold Nat.toDigits
  have h0 : ¬ n / 10 = 0 := by omega
  simp only [Nat.toDigitsCore, h0, if_false]
  rw [toDigitsCore_append n]
  rw [toDigitsCore_fuel (n / 10) n (n / 10 + 1) (by omega) (by omega)]
  rfl

theorem toDigits_ne_nil (n : Nat) : Nat.toDigits 10 n ≠ [] := by
  by_cases h : n < 10
  · rw [toDigits_lt10 n h]
    simp
  · rw [toDigits_ge10 n (by omega)]
    simp

theorem digitChar_inj_lt : ∀ m < 10, ∀ k < 10, Nat.digitChar m = Nat.digitChar k → m = k := by
  decide

/-- Decimal rendering is injective. -/
theorem toDigits_inj : ∀ m k : Nat, Nat.toDigits 10 m = Nat.toDigits 10 k → m = k := by
  intro m
  induction m using Nat.strong_induction_on with
  | _ m ih =>
    intro k h
    by_cases hm : m < 10 <;> by_cases hk : k < 10
    · rw [toDigits_lt10 m hm, toDigits_lt10 k hk] at h
      simp only [List.cons.injEq, and_true] at h
      exact digitChar_inj_lt m hm k hk h
    · rw [toDigits_lt10 m hm, toDigits_ge10 k (by omega)] at h
      have hlen := congrArg List.length h
      simp only [List.length_cons, List.length_nil, List.length_append] at hlen
      exact absurd (List.eq_nil_of_length_eq_zero (by omega))
        (toDigits_ne_nil (k / 10))
    · rw [toDigits_ge10 m (by omega), toDigits_lt10 k hk] at h
      have hlen := congrArg List.length h
      simp only [List.length_cons, List.length_nil, List.length_append] at hlen
      exact absurd (List.eq_nil_of_length_eq_zero (by omega))
        (toDigits_ne_nil (m / 10))
    · rw [toDigits_ge10 m (by omega), toDigits_ge10 k (by omega)] at h
      have h2 := congrArg List.reverse h
      simp only [List.reverse_append, List.reverse_cons, List.reverse_nil,
        List.nil_append, List.singleton_append, List.cons.injEq] at h2
      obtain ⟨hd, htl⟩ := h2
      have hdiv : m / 10 = k / 10 :=
        ih (m / 10) (by omega) (k / 10) (List.reverse_injective htl)
      have hmod : m % 10 = k % 10 :=
        digitChar_inj_lt (m % 10) (Nat.mod_lt _ (by omega)) (k % 10) (Nat.mod_lt _ (by omega)) hd
      omega

/-- Python's decimal formatting of a natural number is injective. -/
theorem nat_repr_inj (m k : Nat) (h : Nat.repr m = Nat.repr k) : m = k := by
  unfold Nat.repr at h
  unfold List.asString at h
  have hd := congrArg String.data h
  exact toDigits_inj m k hd

/-- Client identifiers are injective in the counter value. -/
theorem clientId_inj (m k : Nat) (h : "CLIENT_" ++ Nat.repr m = "CLIENT_" ++ Nat.repr k) :
    m = k := by
  have hd := congrArg String.data h
  simp only [String.data_append] at hd
  have hr := List.append_cancel_left hd
  exact nat_repr_inj m k (by exact String.ext hr)

/-- C9: the `i`-th identifier allocated from a state whose counter is `c` is
exactly `CLIENT_(c+i+1)` — numeric suffixes are strictly increasing across
calls and the counter is never reset, the first agent of a fresh hub gets
`"CLIENT_1"`, and the allocated identifier strings are pairwise distinct
(never reused). -/
theorem claim_C9_monotone_ids :
    (∀ (st : ServerState) (n : Nat),
      allocIds st n =
        (List.range n).map (fun i => "CLIENT_" ++ Nat.repr (st.client_counter + i + 1))) ∧
    (∀ (st : ServerState) (n : Nat), (allocIds st n).Nodup) ∧
    (get_next_client_id ServerState.initial).1 = "CLIENT_1" := by
  have hform : ∀ (n : Nat) (st : ServerState),
      allocIds st n =
        (List.range n).map (fun i => "CLIENT_" ++ Nat.repr (st.client_counter + i + 1)) := by
    intro n
    induction n with
    | zero => intro st; rfl
    | succ n ih =>
      intro st
      rw [allocIds]
      dsimp only [get_next_client_id]
      rw [ih]
      rw [List.range_succ_eq_map, List.map_cons, List.map_map]
      congr 1
      · congr 1
        funext i
        show "CLIENT_" ++ Nat.repr (st.client_counter + 1 + i + 1) =
          "CLIENT_" ++ Nat.repr (st.client_counter + (i + 1) + 1)
        exact congrArg (fun x => "CLIENT_" ++ Nat.repr x)
          (show st.client_counter + 1 + i + 1 = st.client_counter + (i + 1) + 1 by omega)
  refine ⟨fun st n => hform n st, ?_, ?_⟩
  · intro st n
    rw [hform]
    refine List.Nodup.map ?_ (List.nodup_range n)
    intro a b hab
    have h2 : st.client_counter + a + 1 = st.client_counter + b + 1 := clientId_inj _ _ hab
    omega
  · decide

end SeleniumStealth
